import Mathlib

/-!
# Verification of the SkibiDB storage layer (`FileManager` buffer pool)

A shallow embedding of `src/storage/file_manager.rs`: the buffer pool is an
association list from page id to `Page`, the backing file is a list of bytes
together with a seek position, and write-side I/O failure is modelled by a
`diskFails` flag (when set, `write_all` and `sync_all` fail; reads fail exactly
when the requested range extends past the end of the file, as `read_exact`
does).  Every `&mut self` method becomes a function
`FileManager → ... → Except StorageError α × FileManager` returning both the
result and the (possibly mutated) state, mirroring Rust's in-place mutation
where state changes made before an early `?` return survive the error.
-/

namespace SkibiDB

/-- The error type of the storage layer (`src/storage/error.rs`), restricted to
the variants the `FileManager` can produce.  `IOError` stands for any
`std::io::Error` propagated from seek/read/write/sync. -/
inductive StorageError where
  | IOError : StorageError
  | InvalidArgument : String → StorageError
  | UnknownPage : Nat → StorageError
  | BufferPoolFull : Nat → StorageError
  deriving Repr, DecidableEq

/-- A `Page` of the buffer pool: a byte vector, a dirty flag, and a pin count
(`struct Page` in `file_manager.rs`).  Bytes are `Nat`s (values of `u8`), the
pin count a `Nat` (value of `u16`). -/
structure Page where
  data : List Nat
  dirty : Bool
  pin_count : Nat
  deriving Repr, DecidableEq

/-- The `FileManager` state (`struct FileManager` in `file_manager.rs`).  The
open `File` handle is modelled by the file's bytes (`file`), the current seek
position (`filePos`), and the `diskFails` write-failure flag.  The
`buffer_pool` HashMap is modelled as an association list with unique keys;
insertion of a fresh key appends, so iteration order is some fixed order, which
is all the Rust code assumes of the HashMap's arbitrary order. -/
structure FileManager where
  file_path : String
  file : List Nat
  filePos : Nat
  diskFails : Bool
  buffer_pool : List (Nat × Page)
  page_size : Nat
  max_pages_in_pool : Nat
  num_pages : Nat
  deriving Repr, DecidableEq

namespace FileManager

/-! ## Buffer-pool (HashMap) primitives -/

/-- In-place mutation of the page stored under `id` (Rust `get_mut` followed by
field assignments). -/
def mapAt (pool : List (Nat × Page)) (id : Nat) (g : Page → Page) : List (Nat × Page) :=
  pool.map (fun kv => if kv.1 = id then (kv.1, g kv.2) else kv)

/-- `HashMap::insert`: replace the entry if the key is present, else add it
(appending, i.e. the model fixes one of the HashMap's arbitrary orders). -/
def poolInsert (pool : List (Nat × Page)) (id : Nat) (pg : Page) : List (Nat × Page) :=
  if (pool.lookup id).isSome then
    mapAt pool id (fun _ => pg)
  else
    pool ++ [(id, pg)]

/-- `HashMap::remove`. -/
def poolRemove (pool : List (Nat × Page)) (id : Nat) : List (Nat × Page) :=
  pool.filter (fun kv => kv.1 ≠ id)

/-- `get_mut` followed by `page.dirty = b`. -/
def setDirty (pool : List (Nat × Page)) (id : Nat) (b : Bool) : List (Nat × Page) :=
  mapAt pool id (fun pg => { pg with dirty := b })

/-- `get_mut` followed by `page.data.copy_from_slice(data); page.dirty = true`
(the tail of `write_page_to_pool`; `copy_from_slice` replaces the whole buffer,
the two lengths being equal). -/
def setPage (pool : List (Nat × Page)) (id : Nat) (data : List Nat) : List (Nat × Page) :=
  mapAt pool id (fun pg => { pg with data := data, dirty := true })

/-- `get_mut` followed by `page.pin_count += 1`. -/
def incPin (pool : List (Nat × Page)) (id : Nat) : List (Nat × Page) :=
  mapAt pool id (fun pg => { pg with pin_count := pg.pin_count + 1 })

/-- `get_mut` followed by the conditional decrement in `unpin_page`. -/
def decPin (pool : List (Nat × Page)) (id : Nat) : List (Nat × Page) :=
  mapAt pool id (fun pg => { pg with pin_count := pg.pin_count - 1 })

/-! ## File (I/O) primitives -/

/-- Writing `data` into a byte sequence at offset `pos`, zero-padding any gap
between the old end of file and `pos` (POSIX write-after-seek-past-EOF). -/
def writeBytes (file : List Nat) (pos : Nat) (data : List Nat) : List Nat :=
  let padded := file ++ List.replicate (pos - file.length) 0
  padded.take pos ++ data ++ padded.drop (pos + data.length)

/-- `file.seek(SeekFrom::Start(pos))`. -/
def seekTo (fm : FileManager) (pos : Nat) : FileManager :=
  { fm with filePos := pos }

/-- `file.read_exact` of `n` bytes at the current position: succeeds exactly
when `n` bytes are available, else fails with an I/O error (short read) leaving
the manager state unchanged. -/
def readExact (fm : FileManager) (n : Nat) : Except StorageError (List Nat) × FileManager :=
  if fm.filePos + n ≤ fm.file.length then
    (Except.ok ((fm.file.drop fm.filePos).take n), { fm with filePos := fm.filePos + n })
  else
    (Except.error StorageError.IOError, fm)

/-- `file.write_all(data)` at the current position: fails (atomically, in this
model) iff `diskFails` is set. -/
def writeAll (fm : FileManager) (data : List Nat) : Except StorageError Unit × FileManager :=
  if fm.diskFails then
    (Except.error StorageError.IOError, fm)
  else
    (Except.ok (), { fm with
      file := writeBytes fm.file fm.filePos data,
      filePos := fm.filePos + data.length })

/-! ## The `FileManager` operations -/

/-- `FileManager::flush_page`. -/
def flush_page (fm : FileManager) (page_id : Nat) : Except StorageError Unit × FileManager :=
  match fm.buffer_pool.lookup page_id with
  | some page =>
    if page.dirty then
      let fm1 := seekTo fm (page_id * fm.page_size)
      match writeAll fm1 page.data with
      | (Except.error e, fm2) => (Except.error e, fm2)
      | (Except.ok _, fm2) =>
        (Except.ok (), { fm2 with buffer_pool := setDirty fm2.buffer_pool page_id false })
    else
      (Except.ok (), fm)
  | none => (Except.ok (), fm)

/-- `FileManager::evict_page`: find any resident page with `pin_count == 0`,
flush it if dirty (propagating failure without removing it), then remove it;
if no unpinned page exists, fail with `BufferPoolFull(num_pages)`. -/
def evict_page (fm : FileManager) : Except StorageError Unit × FileManager :=
  match fm.buffer_pool.find? (fun kv => kv.2.pin_count == 0) with
  | some (page_id, page) =>
    if page.dirty then
      match flush_page fm page_id with
      | (Except.error e, fm1) => (Except.error e, fm1)
      | (Except.ok _, fm1) =>
        (Except.ok (), { fm1 with buffer_pool := poolRemove fm1.buffer_pool page_id })
    else
      (Except.ok (), { fm with buffer_pool := poolRemove fm.buffer_pool page_id })
  | none => (Except.error (StorageError.BufferPoolFull fm.num_pages), fm)

/-- Closed form of `flush_page`, easier to reason with. -/
theorem flush_page_eq (fm : FileManager) (page_id : Nat) :
    flush_page fm page_id =
      match fm.buffer_pool.lookup page_id with
      | none => (Except.ok (), fm)
      | some page =>
        if page.dirty then
          if fm.diskFails then
            (Except.error StorageError.IOError, seekTo fm (page_id * fm.page_size))
          else
            (Except.ok (), { fm with
              file := writeBytes fm.file (page_id * fm.page_size) page.data,
              filePos := page_id * fm.page_size + page.data.length,
              buffer_pool := setDirty fm.buffer_pool page_id false })
        else (Except.ok (), fm) := by
  unfold flush_page writeAll seekTo
  cases fm.buffer_pool.lookup page_id with
  | none => rfl
  | some page =>
    by_cases hd : page.dirty
    · by_cases hf : fm.diskFails <;> simp [hd, hf]
    · simp [hd]

theorem mapAt_keys (pool : List (Nat × Page)) (id : Nat) (g : Page → Page) :
    (mapAt pool id g).map Prod.fst = pool.map Prod.fst := by
  unfold mapAt
  rw [List.map_map]
  apply List.map_congr_left
  intro kv _
  by_cases h : kv.1 = id <;> simp [h]

theorem setDirty_keys (pool : List (Nat × Page)) (id : Nat) (b : Bool) :
    (setDirty pool id b).map Prod.fst = pool.map Prod.fst :=
  mapAt_keys pool id _

theorem flush_page_keys (fm : FileManager) (page_id : Nat) :
    (flush_page fm page_id).2.buffer_pool.map Prod.fst = fm.buffer_pool.map Prod.fst := by
  rw [flush_page_eq]
  cases fm.buffer_pool.lookup page_id with
  | none => rfl
  | some page =>
    by_cases hd : page.dirty
    · by_cases hf : fm.diskFails <;> simp [hd, hf, seekTo, setDirty_keys]
    · simp [hd]

theorem poolRemove_length_lt (pool : List (Nat × Page)) (id : Nat)
    (h : ∃ kv ∈ pool, kv.1 = id) : (poolRemove pool id).length < pool.length := by
  unfold poolRemove
  rcases h with ⟨kv, hmem, hkey⟩
  apply List.length_filter_lt_length_iff_exists.mpr
  exact ⟨kv, hmem, by simp [hkey]⟩

theorem evict_page_ok_length (fm : FileManager) (u : Unit) (fm' : FileManager)
    (h : evict_page fm = (Except.ok u, fm')) :
    fm'.buffer_pool.length < fm.buffer_pool.length := by
  unfold evict_page at h
  cases hf : fm.buffer_pool.find? (fun kv => kv.2.pin_count == 0) with
  | none => rw [hf] at h; cases h
  | some kv =>
    rw [hf] at h
    obtain ⟨vid, vpage⟩ := kv
    dsimp only at h
    have hmem : (vid, vpage) ∈ fm.buffer_pool := List.mem_of_find?_eq_some hf
    have hvidkeys : ∀ pool : List (Nat × Page),
        pool.map Prod.fst = fm.buffer_pool.map Prod.fst →
        (poolRemove pool vid).length < pool.length := by
      intro pool hkeys
      apply poolRemove_length_lt
      have hvid : vid ∈ pool.map Prod.fst := by
        rw [hkeys]
        exact List.mem_map_of_mem Prod.fst hmem
      rcases List.mem_map.mp hvid with ⟨kv, hkvmem, hkvkey⟩
      exact ⟨kv, hkvmem, hkvkey⟩
    by_cases hd : vpage.dirty
    · rw [if_pos hd] at h
      cases hfl : flush_page fm vid with
      | mk r fm1 =>
        rw [hfl] at h
        cases r with
        | error e => cases h
        | ok v =>
          cases h
          have hkeys : fm1.buffer_pool.map Prod.fst = fm.buffer_pool.map Prod.fst := by
            have := flush_page_keys fm vid
            rwa [hfl] at this
          have hlen : fm1.buffer_pool.length = fm.buffer_pool.length := by
            have := congrArg List.length hkeys
            simpa using this
          calc (poolRemove fm1.buffer_pool vid).length
              < fm1.buffer_pool.length := hvidkeys fm1.buffer_pool hkeys
            _ = fm.buffer_pool.length := hlen
    · rw [if_neg hd] at h
      cases h
      exact hvidkeys fm.buffer_pool rfl

/-- The `while self.buffer_pool.len() >= self.max_pages_in_pool` eviction loop
shared by `read_page` and `write_page_to_pool`. -/
def evictLoop (fm : FileManager) : Except StorageError Unit × FileManager :=
  if fm.buffer_pool.length ≥ fm.max_pages_in_pool then
    match h : evict_page fm with
    | (Except.error e, fm1) => (Except.error e, fm1)
    | (Except.ok u, fm1) => evictLoop fm1
  else
    (Except.ok (), fm)
termination_by fm.buffer_pool.length
decreasing_by exact evict_page_ok_length fm u fm1 h

/-- `FileManager::read_page`.  Returns the page's bytes together with the new
state (the Rust function returns a borrow of the in-pool bytes). -/
def read_page (fm : FileManager) (page_id : Nat) :
    Except StorageError (List Nat) × FileManager :=
  match fm.buffer_pool.lookup page_id with
  | some page => (Except.ok page.data, fm)
  | none =>
    match evictLoop fm with
    | (Except.error e, fm1) => (Except.error e, fm1)
    | (Except.ok _, fm1) =>
      let fm2 := seekTo fm1 (page_id * fm1.page_size)
      match readExact fm2 fm2.page_size with
      | (Except.error e, fm3) => (Except.error e, fm3)
      | (Except.ok page_data, fm3) =>
        (Except.ok page_data,
          { fm3 with buffer_pool :=
              poolInsert fm3.buffer_pool page_id ⟨page_data, false, 0⟩ })

/-- The error message of the length guard of `write_page_to_pool`. -/
def lengthMsg (n ps : Nat) : String :=
  "length of data to write to page: " ++ toString n ++
    " did not match expected page size of " ++ toString ps ++ " bytes."

/-- The "Add page to buffer pool if it is not present" block of
`write_page_to_pool`: evict until there is room, then insert a zero-filled,
clean, unpinned page. -/
def addZeroPageIfAbsent (fm : FileManager) (page_id : Nat) :
    Except StorageError Unit × FileManager :=
  if (fm.buffer_pool.lookup page_id).isSome then
    (Except.ok (), fm)
  else
    match evictLoop fm with
    | (Except.error e, fm1) => (Except.error e, fm1)
    | (Except.ok _, fm1) =>
      (Except.ok (),
        { fm1 with buffer_pool :=
            poolInsert fm1.buffer_pool page_id (Page.mk (List.replicate fm1.page_size 0) false 0) })

/-- `FileManager::write_page_to_pool`. -/
def write_page_to_pool (fm : FileManager) (page_id : Nat) (data : List Nat) :
    Except StorageError Unit × FileManager :=
  if data.length ≠ fm.page_size then
    (Except.error (StorageError.InvalidArgument (lengthMsg data.length fm.page_size)), fm)
  else
    match addZeroPageIfAbsent fm page_id with
    | (Except.error e, fm2) => (Except.error e, fm2)
    | (Except.ok _, fm2) =>
      (Except.ok (), { fm2 with buffer_pool := setPage fm2.buffer_pool page_id data })

/-- The `while self.num_pages >= (self.max_pages_in_pool as u64)` loop at the
head of `allocate_page`.  `evict_page` never changes `num_pages`, so the loop
runs zero times or evicts until `evict_page` fails. -/
def allocLoop (fm : FileManager) : Except StorageError Unit × FileManager :=
  if fm.num_pages ≥ fm.max_pages_in_pool then
    match h : evict_page fm with
    | (Except.error e, fm1) => (Except.error e, fm1)
    | (Except.ok u, fm1) => allocLoop fm1
  else
    (Except.ok (), fm)
termination_by fm.buffer_pool.length
decreasing_by exact evict_page_ok_length fm u fm1 h

/-- `FileManager::allocate_page`. -/
def allocate_page (fm : FileManager) : Except StorageError Nat × FileManager :=
  match allocLoop fm with
  | (Except.error e, fm1) => (Except.error e, fm1)
  | (Except.ok _, fm1) =>
    let page_id := fm1.num_pages + 1
    match write_page_to_pool fm1 page_id (List.replicate fm1.page_size 0) with
    | (Except.error e, fm2) => (Except.error e, fm2)
    | (Except.ok _, fm2) =>
      (Except.ok (fm2.num_pages + 1), { fm2 with num_pages := fm2.num_pages + 1 })

/-- `FileManager::pin_page`. -/
def pin_page (fm : FileManager) (page_id : Nat) : Except StorageError Unit × FileManager :=
  match fm.buffer_pool.lookup page_id with
  | some _ => (Except.ok (), { fm with buffer_pool := incPin fm.buffer_pool page_id })
  | none =>
    match read_page fm page_id with
    | (Except.error e, fm1) => (Except.error e, fm1)
    | (Except.ok _, fm1) =>
      match fm1.buffer_pool.lookup page_id with
      | some _ => (Except.ok (), { fm1 with buffer_pool := incPin fm1.buffer_pool page_id })
      | none => (Except.error (StorageError.UnknownPage page_id), fm1)

/-- `FileManager::unpin_page`. -/
def unpin_page (fm : FileManager) (page_id : Nat) : Option Nat × FileManager :=
  match fm.buffer_pool.lookup page_id with
  | some page =>
    if page.pin_count > 0 then
      (some (page.pin_count - 1), { fm with buffer_pool := decPin fm.buffer_pool page_id })
    else
      (some page.pin_count, fm)
  | none => (none, fm)

/-- The `for page_id in page_ids { self.flush_page(page_id)?; }` loop of
`flush_all_pages`. -/
def flushList (ids : List Nat) (fm : FileManager) : Except StorageError Unit × FileManager :=
  match ids with
  | [] => (Except.ok (), fm)
  | id :: rest =>
    match flush_page fm id with
    | (Except.error e, fm1) => (Except.error e, fm1)
    | (Except.ok _, fm1) => flushList rest fm1

/-- `FileManager::flush_all_pages`: flush every resident page, then
`file.sync_all()` (which, like writes, fails iff `diskFails`). -/
def flush_all_pages (fm : FileManager) : Except StorageError Unit × FileManager :=
  match flushList (fm.buffer_pool.map Prod.fst) fm with
  | (Except.error e, fm1) => (Except.error e, fm1)
  | (Except.ok _, fm1) =>
    if fm1.diskFails then (Except.error StorageError.IOError, fm1)
    else (Except.ok (), fm1)

/-! ## Lemmas about the pool primitives -/

theorem lookup_cons_eq (k : Nat) (v : Page) (rest : List (Nat × Page)) :
    List.lookup k ((k, v) :: rest) = some v := by
  rw [List.lookup_cons]
  simp

theorem lookup_cons_ne (j k : Nat) (v : Page) (rest : List (Nat × Page)) (h : j ≠ k) :
    List.lookup j ((k, v) :: rest) = rest.lookup j := by
  rw [List.lookup_cons]
  have hne : (j == k) = false := by simp [h]
  rw [hne]

theorem mapAt_cons (k : Nat) (v : Page) (rest : List (Nat × Page)) (id : Nat) (g : Page → Page) :
    mapAt ((k, v) :: rest) id g =
      (if k = id then (k, g v) else (k, v)) :: mapAt rest id g := rfl

theorem poolRemove_cons (k : Nat) (v : Page) (rest : List (Nat × Page)) (id : Nat) :
    poolRemove ((k, v) :: rest) id =
      if k = id then poolRemove rest id else (k, v) :: poolRemove rest id := by
  by_cases h : k = id <;> simp [poolRemove, List.filter_cons, h]

theorem lookup_mapAt_self (pool : List (Nat × Page)) (id : Nat) (g : Page → Page) :
    (mapAt pool id g).lookup id = (pool.lookup id).map g := by
  induction pool with
  | nil => rfl
  | cons kv rest ih =>
    obtain ⟨k, v⟩ := kv
    rw [mapAt_cons]
    by_cases h : k = id
    · subst h
      rw [if_pos rfl, lookup_cons_eq, lookup_cons_eq]
      rfl
    · rw [if_neg h, lookup_cons_ne id k v _ (Ne.symm h),
        lookup_cons_ne id k v _ (Ne.symm h), ih]

theorem lookup_mapAt_ne (pool : List (Nat × Page)) (id j : Nat) (g : Page → Page)
    (h : j ≠ id) : (mapAt pool id g).lookup j = pool.lookup j := by
  induction pool with
  | nil => rfl
  | cons kv rest ih =>
    obtain ⟨k, v⟩ := kv
    rw [mapAt_cons]
    by_cases hk : k = id
    · subst hk
      rw [if_pos rfl, lookup_cons_ne j k (g v) _ h, lookup_cons_ne j k v _ h, ih]
    · rw [if_neg hk]
      by_cases hj : j = k
      · subst hj
        rw [lookup_cons_eq, lookup_cons_eq]
      · rw [lookup_cons_ne j k v _ hj, lookup_cons_ne j k v _ hj, ih]

theorem lookup_mapAt_none (pool : List (Nat × Page)) (id j : Nat) (g : Page → Page)
    (h : pool.lookup j = none) : (mapAt pool id g).lookup j = none := by
  by_cases hj : j = id
  · subst hj; rw [lookup_mapAt_self, h]; rfl
  · rw [lookup_mapAt_ne pool id j g hj]; exact h

theorem lookup_poolRemove_self (pool : List (Nat × Page)) (id : Nat) :
    (poolRemove pool id).lookup id = none := by
  induction pool with
  | nil => rfl
  | cons kv rest ih =>
    obtain ⟨k, v⟩ := kv
    rw [poolRemove_cons]
    by_cases hk : k = id
    · rw [if_pos hk, ih]
    · rw [if_neg hk, lookup_cons_ne id k v _ (Ne.symm hk), ih]

theorem lookup_poolRemove_ne (pool : List (Nat × Page)) (id j : Nat) (h : j ≠ id) :
    (poolRemove pool id).lookup j = pool.lookup j := by
  induction pool with
  | nil => rfl
  | cons kv rest ih =>
    obtain ⟨k, v⟩ := kv
    rw [poolRemove_cons]
    by_cases hk : k = id
    · have hj : j ≠ k := fun he => h (he.trans hk)
      rw [if_pos hk, lookup_cons_ne j k v _ hj, ih]
    · by_cases hj : j = k
      · subst hj
        rw [if_neg hk, lookup_cons_eq, lookup_cons_eq]
      · rw [if_neg hk, lookup_cons_ne j k v _ hj, lookup_cons_ne j k v _ hj, ih]

theorem lookup_poolRemove_none (pool : List (Nat × Page)) (id j : Nat)
    (h : pool.lookup j = none) : (poolRemove pool id).lookup j = none := by
  by_cases hj : j = id
  · subst hj; exact lookup_poolRemove_self pool _
  · rw [lookup_poolRemove_ne pool id j hj]; exact h

theorem lookup_append_right_self (pool : List (Nat × Page)) (id : Nat) (pg : Page)
    (h : pool.lookup id = none) : (pool ++ [(id, pg)]).lookup id = some pg := by
  induction pool with
  | nil => simp [lookup_cons_eq]
  | cons kv rest ih =>
    obtain ⟨k, v⟩ := kv
    by_cases hj : id = k
    · subst hj
      rw [lookup_cons_eq] at h
      cases h
    · rw [lookup_cons_ne id k v _ hj] at h
      rw [List.cons_append, lookup_cons_ne id k v _ hj]
      exact ih h

theorem lookup_append_right_ne (pool : List (Nat × Page)) (id j : Nat) (pg : Page)
    (h : j ≠ id) : (pool ++ [(id, pg)]).lookup j = pool.lookup j := by
  induction pool with
  | nil => simpa [List.nil_append] using lookup_cons_ne j id pg [] h
  | cons kv rest ih =>
    obtain ⟨k, v⟩ := kv
    by_cases hj : j = k
    · subst hj
      rw [List.cons_append, lookup_cons_eq, lookup_cons_eq]
    · rw [List.cons_append, lookup_cons_ne j k v _ hj, lookup_cons_ne j k v _ hj]
      exact ih

theorem lookup_poolInsert_self (pool : List (Nat × Page)) (id : Nat) (pg : Page) :
    (poolInsert pool id pg).lookup id = some pg := by
  unfold poolInsert
  by_cases h : (pool.lookup id).isSome
  · rw [if_pos h, lookup_mapAt_self]
    rcases Option.isSome_iff_exists.mp h with ⟨v, hv⟩
    rw [hv]; rfl
  · rw [if_neg h]
    exact lookup_append_right_self pool id pg (Option.not_isSome_iff_eq_none.mp h)

theorem lookup_poolInsert_ne (pool : List (Nat × Page)) (id j : Nat) (pg : Page)
    (h : j ≠ id) : (poolInsert pool id pg).lookup j = pool.lookup j := by
  unfold poolInsert
  by_cases hs : (pool.lookup id).isSome
  · rw [if_pos hs]
    exact lookup_mapAt_ne pool id j _ h
  · rw [if_neg hs]
    exact lookup_append_right_ne pool id j pg h

theorem keys_poolInsert (pool : List (Nat × Page)) (id : Nat) (pg : Page)
    (h : (pool.lookup id).isSome) :
    (poolInsert pool id pg).map Prod.fst = pool.map Prod.fst := by
  unfold poolInsert
  rw [if_pos h]
  exact mapAt_keys pool id _

theorem mapAt_length (pool : List (Nat × Page)) (id : Nat) (g : Page → Page) :
    (mapAt pool id g).length = pool.length := by
  simp [mapAt]

theorem length_poolInsert_le (pool : List (Nat × Page)) (id : Nat) (pg : Page) :
    (poolInsert pool id pg).length ≤ pool.length + 1 := by
  unfold poolInsert
  by_cases h : (pool.lookup id).isSome
  · rw [if_pos h, mapAt_length]
    exact Nat.le_succ _
  · rw [if_neg h]
    simp

theorem length_poolRemove_le (pool : List (Nat × Page)) (id : Nat) :
    (poolRemove pool id).length ≤ pool.length :=
  List.length_filter_le _ pool

/-! ## Configuration preservation

`cfg` collects the fields no operation but `allocate_page` ever changes
(`page_size` and `max_pages_in_pool` are immutable after construction;
`num_pages` is only touched by `allocate_page`); `diskFails` is part of the
disk model, never program state. -/

def cfg (fm : FileManager) : Nat × Nat × Nat × Bool :=
  (fm.page_size, fm.max_pages_in_pool, fm.num_pages, fm.diskFails)

theorem cfg_flush_page (fm : FileManager) (page_id : Nat) :
    cfg (flush_page fm page_id).2 = cfg fm := by
  rw [flush_page_eq]
  cases fm.buffer_pool.lookup page_id with
  | none => rfl
  | some page =>
    by_cases hd : page.dirty
    · by_cases hf : fm.diskFails <;> simp [hd, hf, cfg, seekTo]
    · simp [hd]

theorem cfg_evict_page (fm : FileManager) :
    cfg (evict_page fm).2 = cfg fm := by
  unfold evict_page
  cases hf : fm.buffer_pool.find? (fun kv => kv.2.pin_count == 0) with
  | none => rfl
  | some kv =>
    obtain ⟨vid, vpage⟩ := kv
    dsimp only
    by_cases hd : vpage.dirty
    · rw [if_pos hd]
      cases hfl : flush_page fm vid with
    | mk r fm1 =>
      have hcfg : cfg fm1 = cfg fm := by
        have := cfg_flush_page fm vid
        rwa [hfl] at this
      cases r with
      | error e => exact hcfg
      | ok v => simpa [cfg] using hcfg
    · rw [if_neg hd]
      simp [cfg]

/-! ### Rewriting rules for the two eviction loops -/

theorem evictLoop_of_lt (fm : FileManager)
    (h : fm.buffer_pool.length < fm.max_pages_in_pool) :
    evictLoop fm = (Except.ok (), fm) := by
  unfold evictLoop
  rw [if_neg (by omega)]

theorem evictLoop_of_error (fm fm1 : FileManager) (e : StorageError)
    (hge : fm.buffer_pool.length ≥ fm.max_pages_in_pool)
    (h : evict_page fm = (Except.error e, fm1)) :
    evictLoop fm = (Except.error e, fm1) := by
  unfold evictLoop
  rw [if_pos hge]
  split
  · rename_i e2 fm2 h2
    rw [h] at h2
    cases h2
    rfl
  · rename_i u fm2 h2
    rw [h] at h2
    cases h2

theorem evictLoop_of_ok (fm fm1 : FileManager) (u : Unit)
    (hge : fm.buffer_pool.length ≥ fm.max_pages_in_pool)
    (h : evict_page fm = (Except.ok u, fm1)) :
    evictLoop fm = evictLoop fm1 := by
  conv_lhs => unfold evictLoop
  rw [if_pos hge]
  split
  · rename_i e2 fm2 h2
    rw [h] at h2
    cases h2
  · rename_i u2 fm2 h2
    rw [h] at h2
    cases h2
    rfl

theorem allocLoop_of_lt (fm : FileManager)
    (h : fm.num_pages < fm.max_pages_in_pool) :
    allocLoop fm = (Except.ok (), fm) := by
  unfold allocLoop
  rw [if_neg (by omega)]

theorem allocLoop_of_error (fm fm1 : FileManager) (e : StorageError)
    (hge : fm.num_pages ≥ fm.max_pages_in_pool)
    (h : evict_page fm = (Except.error e, fm1)) :
    allocLoop fm = (Except.error e, fm1) := by
  unfold allocLoop
  rw [if_pos hge]
  split
  · rename_i e2 fm2 h2
    rw [h] at h2
    cases h2
    rfl
  · rename_i u fm2 h2
    rw [h] at h2
    cases h2

theorem allocLoop_of_ok (fm fm1 : FileManager) (u : Unit)
    (hge : fm.num_pages ≥ fm.max_pages_in_pool)
    (h : evict_page fm = (Except.ok u, fm1)) :
    allocLoop fm = allocLoop fm1 := by
  conv_lhs => unfold allocLoop
  rw [if_pos hge]
  split
  · rename_i e2 fm2 h2
    rw [h] at h2
    cases h2
  · rename_i u2 fm2 h2
    rw [h] at h2
    cases h2
    rfl

theorem cfg_evictLoop (fm : FileManager) :
    cfg (evictLoop fm).2 = cfg fm := by
  induction fm using evictLoop.induct with
  | case1 fm hge e fm1 h =>
    rw [evictLoop_of_error fm fm1 e hge h]
    have := cfg_evict_page fm
    rwa [h] at this
  | case2 fm hge u fm1 h ih =>
    rw [evictLoop_of_ok fm fm1 u hge h]
    have h1 := cfg_evict_page fm
    rw [h] at h1
    rw [ih, h1]
  | case3 fm hlt =>
    rw [evictLoop_of_lt fm (by omega)]

theorem cfg_allocLoop (fm : FileManager) :
    cfg (allocLoop fm).2 = cfg fm := by
  induction fm using allocLoop.induct with
  | case1 fm hge e fm1 h =>
    rw [allocLoop_of_error fm fm1 e hge h]
    have := cfg_evict_page fm
    rwa [h] at this
  | case2 fm hge u fm1 h ih =>
    rw [allocLoop_of_ok fm fm1 u hge h]
    have h1 := cfg_evict_page fm
    rw [h] at h1
    rw [ih, h1]
  | case3 fm hlt =>
    rw [allocLoop_of_lt fm (by omega)]

theorem cfg_seekTo (fm : FileManager) (pos : Nat) : cfg (seekTo fm pos) = cfg fm := rfl

theorem cfg_readExact (fm : FileManager) (n : Nat) : cfg (readExact fm n).2 = cfg fm := by
  unfold readExact
  split <;> rfl

theorem cfg_read_page (fm : FileManager) (page_id : Nat) :
    cfg (read_page fm page_id).2 = cfg fm := by
  unfold read_page
  cases fm.buffer_pool.lookup page_id with
  | some page => rfl
  | none =>
    cases hE : evictLoop fm with
    | mk r fm1 =>
      have hcfg1 : cfg fm1 = cfg fm := by
        have := cfg_evictLoop fm
        rwa [hE] at this
      cases r with
      | error e => exact hcfg1
      | ok u =>
        dsimp only
        cases hR : readExact (seekTo fm1 (page_id * fm1.page_size))
            (seekTo fm1 (page_id * fm1.page_size)).page_size with
        | mk r2 fm3 =>
          have hcfg3 : cfg fm3 = cfg fm1 := by
            have h1 := cfg_readExact (seekTo fm1 (page_id * fm1.page_size))
              (seekTo fm1 (page_id * fm1.page_size)).page_size
            rw [hR] at h1
            exact h1.trans (cfg_seekTo fm1 _)
          cases r2 with
          | error e => exact hcfg3.trans hcfg1
          | ok page_data =>
            dsimp only [cfg] at hcfg3 hcfg1 ⊢
            rw [hcfg3, hcfg1]

theorem cfg_addZeroPageIfAbsent (fm : FileManager) (page_id : Nat) :
    cfg (addZeroPageIfAbsent fm page_id).2 = cfg fm := by
  unfold addZeroPageIfAbsent
  split
  · rfl
  · cases hE : evictLoop fm with
    | mk r fm1 =>
      have hcfg1 : cfg fm1 = cfg fm := by
        have := cfg_evictLoop fm
        rwa [hE] at this
      cases r with
      | error e => exact hcfg1
      | ok u => simpa [cfg] using congrArg (fun t => t) hcfg1

theorem cfg_write_page_to_pool (fm : FileManager) (page_id : Nat) (data : List Nat) :
    cfg (write_page_to_pool fm page_id data).2 = cfg fm := by
  unfold write_page_to_pool
  split
  · rfl
  · cases hA : addZeroPageIfAbsent fm page_id with
    | mk r fm2 =>
      have hcfg2 : cfg fm2 = cfg fm := by
        have := cfg_addZeroPageIfAbsent fm page_id
        rwa [hA] at this
      cases r with
      | error e => exact hcfg2
      | ok u => simpa [cfg] using hcfg2

theorem cfg_pin_page (fm : FileManager) (page_id : Nat) :
    cfg (pin_page fm page_id).2 = cfg fm := by
  unfold pin_page
  cases fm.buffer_pool.lookup page_id with
  | some page => rfl
  | none =>
    cases hR : read_page fm page_id with
    | mk r fm1 =>
      have hcfg1 : cfg fm1 = cfg fm := by
        have := cfg_read_page fm page_id
        rwa [hR] at this
      cases r with
      | error e => exact hcfg1
      | ok d =>
        dsimp only
        cases fm1.buffer_pool.lookup page_id with
        | some page => simpa [cfg] using hcfg1
        | none => exact hcfg1

theorem cfg_unpin_page (fm : FileManager) (page_id : Nat) :
    cfg (unpin_page fm page_id).2 = cfg fm := by
  unfold unpin_page
  cases fm.buffer_pool.lookup page_id with
  | some page =>
    dsimp only
    split <;> rfl
  | none => rfl

theorem cfg_flushList (ids : List Nat) (fm : FileManager) :
    cfg (flushList ids fm).2 = cfg fm := by
  induction ids generalizing fm with
  | nil => rfl
  | cons id rest ih =>
    unfold flushList
    cases hF : flush_page fm id with
    | mk r fm1 =>
      have hcfg1 : cfg fm1 = cfg fm := by
        have := cfg_flush_page fm id
        rwa [hF] at this
      cases r with
      | error e => exact hcfg1
      | ok u => exact (ih fm1).trans hcfg1

theorem cfg_flush_all_pages (fm : FileManager) :
    cfg (flush_all_pages fm).2 = cfg fm := by
  unfold flush_all_pages
  cases hL : flushList (fm.buffer_pool.map Prod.fst) fm with
  | mk r fm1 =>
    have hcfg1 : cfg fm1 = cfg fm := by
      have := cfg_flushList (fm.buffer_pool.map Prod.fst) fm
      rwa [hL] at this
    cases r with
    | error e => exact hcfg1
    | ok u =>
      dsimp only
      split <;> exact hcfg1

/-- Projections out of a `cfg` equality. -/
theorem page_size_of_cfg {a b : FileManager} (h : cfg a = cfg b) :
    a.page_size = b.page_size := congrArg (fun t => t.1) h

theorem max_pages_of_cfg {a b : FileManager} (h : cfg a = cfg b) :
    a.max_pages_in_pool = b.max_pages_in_pool := congrArg (fun t => t.2.1) h

theorem num_pages_of_cfg {a b : FileManager} (h : cfg a = cfg b) :
    a.num_pages = b.num_pages := congrArg (fun t => t.2.2.1) h

theorem diskFails_of_cfg {a b : FileManager} (h : cfg a = cfg b) :
    a.diskFails = b.diskFails := congrArg (fun t => t.2.2.2) h

/-! ## Lookup wrappers for the specific mutators -/

theorem lookup_setDirty_self (pool : List (Nat × Page)) (id : Nat) (b : Bool) :
    (setDirty pool id b).lookup id = (pool.lookup id).map (fun pg => { pg with dirty := b }) :=
  lookup_mapAt_self pool id _

theorem lookup_setDirty_none (pool : List (Nat × Page)) (id j : Nat) (b : Bool)
    (h : pool.lookup j = none) : (setDirty pool id b).lookup j = none :=
  lookup_mapAt_none pool id j _ h

theorem lookup_setPage_self (pool : List (Nat × Page)) (id : Nat) (d : List Nat) :
    (setPage pool id d).lookup id =
      (pool.lookup id).map (fun pg => { pg with data := d, dirty := true }) :=
  lookup_mapAt_self pool id _

theorem lookup_incPin_self (pool : List (Nat × Page)) (id : Nat) :
    (incPin pool id).lookup id =
      (pool.lookup id).map (fun pg => { pg with pin_count := pg.pin_count + 1 }) :=
  lookup_mapAt_self pool id _

/-! ## State analysis of the primitive I/O steps -/

theorem readExact_error_state (fm : FileManager) (n : Nat) (e : StorageError)
    (fm' : FileManager) (h : readExact fm n = (Except.error e, fm')) :
    fm' = fm ∧ fm.file.length < fm.filePos + n := by
  unfold readExact at h
  split at h
  · cases h
  · cases h
    exact ⟨rfl, by omega⟩

theorem readExact_ok_state (fm : FileManager) (n : Nat) (d : List Nat)
    (fm' : FileManager) (h : readExact fm n = (Except.ok d, fm')) :
    d = (fm.file.drop fm.filePos).take n ∧ fm.filePos + n ≤ fm.file.length ∧
      fm' = { fm with filePos := fm.filePos + n } ∧ d.length = n := by
  unfold readExact at h
  split at h
  · cases h
    refine ⟨rfl, by omega, rfl, ?_⟩
    rename_i hle
    simp [List.length_take, List.length_drop]
    omega
  · cases h

/-! ## No operation ever creates a page out of thin air -/

theorem flush_page_pool_cases (fm : FileManager) (pid : Nat) :
    (flush_page fm pid).2.buffer_pool = setDirty fm.buffer_pool pid false ∨
    (flush_page fm pid).2.buffer_pool = fm.buffer_pool := by
  rw [flush_page_eq]
  cases fm.buffer_pool.lookup pid with
  | none => right; rfl
  | some page =>
    by_cases hd : page.dirty
    · by_cases hfail : fm.diskFails
      · right; simp [hd, hfail, seekTo]
      · left; simp [hd, hfail]
    · right; simp [hd]

theorem flush_page_lookup_none (fm : FileManager) (pid j : Nat)
    (h : fm.buffer_pool.lookup j = none) :
    (flush_page fm pid).2.buffer_pool.lookup j = none := by
  rcases flush_page_pool_cases fm pid with h1 | h1
  · rw [h1]; exact lookup_setDirty_none _ _ _ _ h
  · rw [h1]; exact h

theorem evict_page_lookup_none (fm : FileManager) (j : Nat)
    (h : fm.buffer_pool.lookup j = none) :
    (evict_page fm).2.buffer_pool.lookup j = none := by
  unfold evict_page
  cases hf : fm.buffer_pool.find? (fun kv => kv.2.pin_count == 0) with
  | none => exact h
  | some kv =>
    obtain ⟨vid, vpage⟩ := kv
    dsimp only
    by_cases hd : vpage.dirty
    · rw [if_pos hd]
      cases hfl : flush_page fm vid with
      | mk r fm1 =>
        have hnone1 : fm1.buffer_pool.lookup j = none := by
          have := flush_page_lookup_none fm vid j h
          rwa [hfl] at this
        cases r with
        | error e => exact hnone1
        | ok u => exact lookup_poolRemove_none _ _ _ hnone1
    · rw [if_neg hd]
      exact lookup_poolRemove_none _ _ _ h

theorem evictLoop_lookup_none (fm : FileManager) (j : Nat)
    (h : fm.buffer_pool.lookup j = none) :
    (evictLoop fm).2.buffer_pool.lookup j = none := by
  induction fm using evictLoop.induct with
  | case1 fm hge e fm1 hev =>
    rw [evictLoop_of_error fm fm1 e hge hev]
    have := evict_page_lookup_none fm j h
    rwa [hev] at this
  | case2 fm hge u fm1 hev ih =>
    rw [evictLoop_of_ok fm fm1 u hge hev]
    apply ih
    have := evict_page_lookup_none fm j h
    rwa [hev] at this
  | case3 fm hlt =>
    rw [evictLoop_of_lt fm (by omega)]
    exact h

theorem allocLoop_lookup_none (fm : FileManager) (j : Nat)
    (h : fm.buffer_pool.lookup j = none) :
    (allocLoop fm).2.buffer_pool.lookup j = none := by
  induction fm using allocLoop.induct with
  | case1 fm hge e fm1 hev =>
    rw [allocLoop_of_error fm fm1 e hge hev]
    have := evict_page_lookup_none fm j h
    rwa [hev] at this
  | case2 fm hge u fm1 hev ih =>
    rw [allocLoop_of_ok fm fm1 u hge hev]
    apply ih
    have := evict_page_lookup_none fm j h
    rwa [hev] at this
  | case3 fm hlt =>
    rw [allocLoop_of_lt fm (by omega)]
    exact h

/-! ## Success- and error-state characterisations of the public operations -/

/-- On a successful read the page is resident afterwards with exactly the
returned bytes. -/
theorem read_page_ok_lookup (fm : FileManager) (pid : Nat) (d : List Nat)
    (fm' : FileManager) (h : read_page fm pid = (Except.ok d, fm')) :
    ∃ pg, fm'.buffer_pool.lookup pid = some pg ∧ pg.data = d := by
  unfold read_page at h
  cases hl : fm.buffer_pool.lookup pid with
  | some page =>
    rw [hl] at h
    cases h
    exact ⟨page, hl, rfl⟩
  | none =>
    rw [hl] at h
    cases hE : evictLoop fm with
    | mk r fm1 =>
      rw [hE] at h
      cases r with
      | error e => cases h
      | ok u =>
        dsimp only at h
        cases hR : readExact (seekTo fm1 (pid * fm1.page_size))
            (seekTo fm1 (pid * fm1.page_size)).page_size with
        | mk r2 fm3 =>
          rw [hR] at h
          cases r2 with
          | error e => cases h
          | ok page_data =>
            cases h
            exact ⟨⟨_, false, 0⟩, lookup_poolInsert_self _ _ _, rfl⟩

/-- A failed read means the page was absent, and leaves no new page resident:
any id absent before the call is absent after it. -/
theorem read_page_error_state (fm : FileManager) (pid : Nat) (e : StorageError)
    (fm' : FileManager) (h : read_page fm pid = (Except.error e, fm')) :
    fm.buffer_pool.lookup pid = none ∧
      (∀ j, fm.buffer_pool.lookup j = none → fm'.buffer_pool.lookup j = none) := by
  unfold read_page at h
  cases hl : fm.buffer_pool.lookup pid with
  | some page => rw [hl] at h; cases h
  | none =>
    rw [hl] at h
    refine ⟨rfl, ?_⟩
    intro j hj
    cases hE : evictLoop fm with
    | mk r fm1 =>
      rw [hE] at h
      have hnone1 : fm1.buffer_pool.lookup j = none := by
        have := evictLoop_lookup_none fm j hj
        rwa [hE] at this
      cases r with
      | error e2 =>
        cases h
        exact hnone1
      | ok u =>
        dsimp only at h
        cases hR : readExact (seekTo fm1 (pid * fm1.page_size))
            (seekTo fm1 (pid * fm1.page_size)).page_size with
        | mk r2 fm3 =>
          rw [hR] at h
          cases r2 with
          | error e2 =>
            cases h
            have := (readExact_error_state _ _ _ _ hR).1
            rw [this]
            exact hnone1
          | ok page_data => cases h

/-- A successful `addZeroPageIfAbsent` leaves the page resident. -/
theorem addZeroPageIfAbsent_ok_isSome (fm : FileManager) (pid : Nat) (u : Unit)
    (fm2 : FileManager) (h : addZeroPageIfAbsent fm pid = (Except.ok u, fm2)) :
    (fm2.buffer_pool.lookup pid).isSome := by
  unfold addZeroPageIfAbsent at h
  split at h
  · rename_i hs
    cases h
    exact hs
  · cases hE : evictLoop fm with
    | mk r fm1 =>
      rw [hE] at h
      cases r with
      | error e => cases h
      | ok u2 =>
        cases h
        rw [lookup_poolInsert_self]
        rfl

/-- A failed `addZeroPageIfAbsent` inserts nothing. -/
theorem addZeroPageIfAbsent_error_state (fm : FileManager) (pid : Nat) (e : StorageError)
    (fm2 : FileManager) (h : addZeroPageIfAbsent fm pid = (Except.error e, fm2)) :
    ∀ j, fm.buffer_pool.lookup j = none → fm2.buffer_pool.lookup j = none := by
  unfold addZeroPageIfAbsent at h
  split at h
  · cases h
  · cases hE : evictLoop fm with
    | mk r fm1 =>
      rw [hE] at h
      cases r with
      | error e2 =>
        cases h
        intro j hj
        have := evictLoop_lookup_none fm j hj
        rwa [hE] at this
      | ok u2 => cases h

/-- After a successful write, the page is resident with exactly the written
bytes and marked dirty. -/
theorem write_page_ok_lookup (fm : FileManager) (pid : Nat) (data : List Nat) (u : Unit)
    (fm' : FileManager) (h : write_page_to_pool fm pid data = (Except.ok u, fm')) :
    ∃ pg, fm'.buffer_pool.lookup pid = some pg ∧ pg.data = data ∧ pg.dirty = true := by
  unfold write_page_to_pool at h
  split at h
  · cases h
  · cases hA : addZeroPageIfAbsent fm pid with
    | mk r fm2 =>
      rw [hA] at h
      cases r with
      | error e => cases h
      | ok u2 =>
        cases h
        have hs := addZeroPageIfAbsent_ok_isSome fm pid u2 fm2 hA
        rcases Option.isSome_iff_exists.mp hs with ⟨pg, hpg⟩
        refine ⟨{ pg with data := data, dirty := true }, ?_, rfl, rfl⟩
        dsimp only
        rw [lookup_setPage_self, hpg]
        rfl

/-- A failed write inserts nothing. -/
theorem write_page_error_state (fm : FileManager) (pid : Nat) (data : List Nat)
    (e : StorageError) (fm' : FileManager)
    (h : write_page_to_pool fm pid data = (Except.error e, fm')) :
    ∀ j, fm.buffer_pool.lookup j = none → fm'.buffer_pool.lookup j = none := by
  unfold write_page_to_pool at h
  split at h
  · cases h
    intro j hj
    exact hj
  · cases hA : addZeroPageIfAbsent fm pid with
    | mk r fm2 =>
      rw [hA] at h
      cases r with
      | error e2 =>
        cases h
        exact addZeroPageIfAbsent_error_state fm pid e fm' hA
      | ok u2 => cases h

/-- Characterisation of a successful allocation: the returned id and the new
`num_pages` are both the old `num_pages + 1`. -/
theorem allocate_page_ok_spec (fm : FileManager) (pid : Nat) (fm' : FileManager)
    (h : allocate_page fm = (Except.ok pid, fm')) :
    pid = fm.num_pages + 1 ∧ fm'.num_pages = fm.num_pages + 1 := by
  unfold allocate_page at h
  cases hA : allocLoop fm with
  | mk r fm1 =>
    rw [hA] at h
    have hnum1 : fm1.num_pages = fm.num_pages := by
      apply num_pages_of_cfg
      have := cfg_allocLoop fm
      rwa [hA] at this
    cases r with
    | error e => cases h
    | ok u =>
      dsimp only at h
      cases hW : write_page_to_pool fm1 (fm1.num_pages + 1)
          (List.replicate fm1.page_size 0) with
      | mk r2 fm2 =>
        rw [hW] at h
        cases r2 with
        | error e => cases h
        | ok u2 =>
          cases h
          have hnum2 : fm2.num_pages = fm1.num_pages := by
            apply num_pages_of_cfg
            have := cfg_write_page_to_pool fm1 (fm1.num_pages + 1)
              (List.replicate fm1.page_size 0)
            rwa [hW] at this
          constructor
          · rw [hnum2, hnum1]
          · dsimp only
            rw [hnum2, hnum1]

/-- A failed allocation leaves `num_pages` exactly as it was and inserts no
page. -/
theorem allocate_page_error_state (fm : FileManager) (e : StorageError)
    (fm' : FileManager) (h : allocate_page fm = (Except.error e, fm')) :
    fm'.num_pages = fm.num_pages ∧
      (∀ j, fm.buffer_pool.lookup j = none → fm'.buffer_pool.lookup j = none) := by
  unfold allocate_page at h
  cases hA : allocLoop fm with
  | mk r fm1 =>
    rw [hA] at h
    have hnum1 : fm1.num_pages = fm.num_pages := by
      apply num_pages_of_cfg
      have := cfg_allocLoop fm
      rwa [hA] at this
    cases r with
    | error e2 =>
      cases h
      refine ⟨hnum1, ?_⟩
      intro j hj
      have := allocLoop_lookup_none fm j hj
      rwa [hA] at this
    | ok u =>
      dsimp only at h
      cases hW : write_page_to_pool fm1 (fm1.num_pages + 1)
          (List.replicate fm1.page_size 0) with
      | mk r2 fm2 =>
        rw [hW] at h
        cases r2 with
        | error e2 =>
          cases h
          have hnum2 : fm'.num_pages = fm1.num_pages := by
            apply num_pages_of_cfg
            have := cfg_write_page_to_pool fm1 (fm1.num_pages + 1)
              (List.replicate fm1.page_size 0)
            rwa [hW] at this
          refine ⟨hnum2.trans hnum1, ?_⟩
          intro j hj
          have h1 : fm1.buffer_pool.lookup j = none := by
            have := allocLoop_lookup_none fm j hj
            rwa [hA] at this
          exact write_page_error_state fm1 _ _ e fm' hW j h1
        | ok u2 => cases h

/-! ## Membership lemmas for the pool primitives -/

theorem mem_mapAt (pool : List (Nat × Page)) (id : Nat) (g : Page → Page)
    (kv' : Nat × Page) (h : kv' ∈ mapAt pool id g) :
    kv' ∈ pool ∨ ∃ kv, kv ∈ pool ∧ kv.1 = id ∧ kv' = (kv.1, g kv.2) := by
  unfold mapAt at h
  rcases List.mem_map.mp h with ⟨kv, hmem, heq⟩
  by_cases hk : kv.1 = id
  · right
    exact ⟨kv, hmem, hk, by rw [← heq, if_pos hk]⟩
  · left
    rw [← heq, if_neg hk]
    exact hmem

theorem mem_mapAt_of_mem_ne (pool : List (Nat × Page)) (id : Nat) (g : Page → Page)
    (kv : Nat × Page) (hmem : kv ∈ pool) (hne : kv.1 ≠ id) : kv ∈ mapAt pool id g := by
  unfold mapAt
  have : (if kv.1 = id then (kv.1, g kv.2) else kv) = kv := if_neg hne
  rw [← this]
  exact List.mem_map_of_mem _ hmem

theorem mem_poolRemove (pool : List (Nat × Page)) (id : Nat) (kv : Nat × Page)
    (h : kv ∈ poolRemove pool id) : kv ∈ pool :=
  List.mem_of_mem_filter h

theorem mem_poolRemove_of_mem_ne (pool : List (Nat × Page)) (id : Nat)
    (kv : Nat × Page) (hmem : kv ∈ pool) (hne : kv.1 ≠ id) : kv ∈ poolRemove pool id := by
  unfold poolRemove
  exact List.mem_filter.mpr ⟨hmem, by simp [hne]⟩

theorem mem_poolInsert (pool : List (Nat × Page)) (id : Nat) (pg : Page)
    (kv : Nat × Page) (h : kv ∈ poolInsert pool id pg) :
    kv ∈ pool ∨ kv.2 = pg := by
  unfold poolInsert at h
  split at h
  · rcases mem_mapAt pool id _ kv h with h1 | ⟨kv2, _, _, heq⟩
    · exact Or.inl h1
    · right; rw [heq]
  · rcases List.mem_append.mp h with h1 | h1
    · exact Or.inl h1
    · right
      rcases List.mem_singleton.mp h1 with rfl
      rfl

/-! ## Pool-size bounds for the eviction loops -/

theorem evict_page_length_le (fm : FileManager) :
    (evict_page fm).2.buffer_pool.length ≤ fm.buffer_pool.length := by
  cases hE : evict_page fm with
  | mk r fm1 =>
    cases r with
    | ok u => exact Nat.le_of_lt (evict_page_ok_length fm u fm1 hE)
    | error e =>
      unfold evict_page at hE
      cases hf : fm.buffer_pool.find? (fun kv => kv.2.pin_count == 0) with
      | none =>
        rw [hf] at hE
        cases hE
        exact Nat.le_refl _
      | some kv =>
        obtain ⟨vid, vpage⟩ := kv
        rw [hf] at hE
        dsimp only at hE
        by_cases hd : vpage.dirty
        · rw [if_pos hd] at hE
          cases hfl : flush_page fm vid with
          | mk r2 fm2 =>
            rw [hfl] at hE
            cases r2 with
            | error e2 =>
              cases hE
              have := congrArg List.length (flush_page_keys fm vid)
              rw [hfl] at this
              simpa using Nat.le_of_eq this
            | ok u2 => cases hE
        · rw [if_neg hd] at hE
          cases hE

theorem evictLoop_length_le (fm : FileManager) :
    (evictLoop fm).2.buffer_pool.length ≤ fm.buffer_pool.length := by
  induction fm using evictLoop.induct with
  | case1 fm hge e fm1 hev =>
    rw [evictLoop_of_error fm fm1 e hge hev]
    have := evict_page_length_le fm
    rwa [hev] at this
  | case2 fm hge u fm1 hev ih =>
    rw [evictLoop_of_ok fm fm1 u hge hev]
    have h1 := evict_page_length_le fm
    rw [hev] at h1
    exact Nat.le_trans ih h1
  | case3 fm hlt =>
    rw [evictLoop_of_lt fm (by omega)]

theorem allocLoop_length_le (fm : FileManager) :
    (allocLoop fm).2.buffer_pool.length ≤ fm.buffer_pool.length := by
  induction fm using allocLoop.induct with
  | case1 fm hge e fm1 hev =>
    rw [allocLoop_of_error fm fm1 e hge hev]
    have := evict_page_length_le fm
    rwa [hev] at this
  | case2 fm hge u fm1 hev ih =>
    rw [allocLoop_of_ok fm fm1 u hge hev]
    have h1 := evict_page_length_le fm
    rw [hev] at h1
    exact Nat.le_trans ih h1
  | case3 fm hlt =>
    rw [allocLoop_of_lt fm (by omega)]

/-- A successful eviction loop always exits below capacity. -/
theorem evictLoop_ok_lt (fm fm1 : FileManager) (u : Unit)
    (h : evictLoop fm = (Except.ok u, fm1)) :
    fm1.buffer_pool.length < fm1.max_pages_in_pool := by
  induction fm using evictLoop.induct with
  | case1 fm hge e fm2 hev =>
    rw [evictLoop_of_error fm fm2 e hge hev] at h
    cases h
  | case2 fm hge u2 fm2 hev ih =>
    rw [evictLoop_of_ok fm fm2 u2 hge hev] at h
    exact ih h
  | case3 fm hlt =>
    rw [evictLoop_of_lt fm (by omega)] at h
    cases h
    omega

/-! ## The representation invariant (claim C8) -/

/-- The joint invariant of the manager: the pool never exceeds its capacity,
and every resident page holds exactly `page_size` bytes. -/
def Inv (fm : FileManager) : Prop :=
  fm.buffer_pool.length ≤ fm.max_pages_in_pool ∧
    ∀ kv ∈ fm.buffer_pool, kv.2.data.length = fm.page_size

theorem Inv_flush_page (fm : FileManager) (pid : Nat) (h : Inv fm) :
    Inv (flush_page fm pid).2 := by
  obtain ⟨hlen, hdata⟩ := h
  have hcfg := cfg_flush_page fm pid
  have hps := page_size_of_cfg hcfg
  have hmax := max_pages_of_cfg hcfg
  rcases flush_page_pool_cases fm pid with hp | hp
  · constructor
    · rw [hp, hmax]
      unfold setDirty
      rw [mapAt_length]
      exact hlen
    · intro kv hkv
      rw [hp] at hkv
      rw [hps]
      rcases mem_mapAt _ _ _ kv hkv with h1 | ⟨kv2, hmem2, _, heq⟩
      · exact hdata kv h1
      · rw [heq]
        exact hdata kv2 hmem2
  · constructor
    · rw [hp, hmax]
      exact hlen
    · intro kv hkv
      rw [hp] at hkv
      rw [hps]
      exact hdata kv hkv

theorem Inv_evict_page (fm : FileManager) (h : Inv fm) :
    Inv (evict_page fm).2 := by
  cases hE : evict_page fm with
  | mk r fm1 =>
    unfold evict_page at hE
    cases hf : fm.buffer_pool.find? (fun kv => kv.2.pin_count == 0) with
    | none =>
      rw [hf] at hE
      cases hE
      exact h
    | some kv =>
      obtain ⟨vid, vpage⟩ := kv
      rw [hf] at hE
      dsimp only at hE
      by_cases hd : vpage.dirty
      · rw [if_pos hd] at hE
        cases hfl : flush_page fm vid with
        | mk r2 fm2 =>
          rw [hfl] at hE
          have hInv2 : Inv fm2 := by
            have := Inv_flush_page fm vid h
            rwa [hfl] at this
          cases r2 with
          | error e2 =>
            cases hE
            exact hInv2
          | ok u2 =>
            cases hE
            obtain ⟨hlen2, hdata2⟩ := hInv2
            constructor
            · exact Nat.le_trans (length_poolRemove_le _ _) hlen2
            · intro kv hkv
              exact hdata2 kv (mem_poolRemove _ _ _ hkv)
      · rw [if_neg hd] at hE
        cases hE
        obtain ⟨hlen, hdata⟩ := h
        constructor
        · exact Nat.le_trans (length_poolRemove_le _ _) hlen
        · intro kv hkv
          exact hdata kv (mem_poolRemove _ _ _ hkv)

theorem Inv_evictLoop (fm : FileManager) (h : Inv fm) :
    Inv (evictLoop fm).2 := by
  induction fm using evictLoop.induct with
  | case1 fm hge e fm1 hev =>
    rw [evictLoop_of_error fm fm1 e hge hev]
    have := Inv_evict_page fm h
    rwa [hev] at this
  | case2 fm hge u fm1 hev ih =>
    rw [evictLoop_of_ok fm fm1 u hge hev]
    apply ih
    have := Inv_evict_page fm h
    rwa [hev] at this
  | case3 fm hlt =>
    rw [evictLoop_of_lt fm (by omega)]
    exact h

theorem Inv_allocLoop (fm : FileManager) (h : Inv fm) :
    Inv (allocLoop fm).2 := by
  induction fm using allocLoop.induct with
  | case1 fm hge e fm1 hev =>
    rw [allocLoop_of_error fm fm1 e hge hev]
    have := Inv_evict_page fm h
    rwa [hev] at this
  | case2 fm hge u fm1 hev ih =>
    rw [allocLoop_of_ok fm fm1 u hge hev]
    apply ih
    have := Inv_evict_page fm h
    rwa [hev] at this
  | case3 fm hlt =>
    rw [allocLoop_of_lt fm (by omega)]
    exact h

theorem Inv_read_page (fm : FileManager) (pid : Nat) (h : Inv fm) :
    Inv (read_page fm pid).2 := by
  unfold read_page
  cases hl : fm.buffer_pool.lookup pid with
  | some page => exact h
  | none =>
    cases hE : evictLoop fm with
    | mk r fm1 =>
      have hInv1 : Inv fm1 := by
        have := Inv_evictLoop fm h
        rwa [hE] at this
      cases r with
      | error e => exact hInv1
      | ok u =>
        dsimp only
        have hlt1 : fm1.buffer_pool.length < fm1.max_pages_in_pool :=
          evictLoop_ok_lt fm fm1 u hE
        cases hR : readExact (seekTo fm1 (pid * fm1.page_size))
            (seekTo fm1 (pid * fm1.page_size)).page_size with
        | mk r2 fm3 =>
          cases r2 with
          | error e =>
            rcases readExact_error_state _ _ _ _ hR with ⟨rfl, _⟩
            exact hInv1
          | ok page_data =>
            rcases readExact_ok_state _ _ _ _ hR with ⟨_, _, hfm3, hdlen⟩
            subst hfm3
            obtain ⟨hlen1, hdata1⟩ := hInv1
            constructor
            · dsimp only [seekTo]
              calc (poolInsert fm1.buffer_pool pid (Page.mk page_data false 0)).length
                  ≤ fm1.buffer_pool.length + 1 := length_poolInsert_le _ _ _
                _ ≤ fm1.max_pages_in_pool := by omega
            · intro kv hkv
              dsimp only [seekTo] at hkv ⊢
              rcases mem_poolInsert _ _ _ kv hkv with h1 | h1
              · exact hdata1 kv h1
              · rw [h1]
                simpa [seekTo] using hdlen

theorem Inv_addZeroPageIfAbsent (fm : FileManager) (pid : Nat) (h : Inv fm) :
    Inv (addZeroPageIfAbsent fm pid).2 := by
  unfold addZeroPageIfAbsent
  split
  · exact h
  · cases hE : evictLoop fm with
    | mk r fm1 =>
      have hInv1 : Inv fm1 := by
        have := Inv_evictLoop fm h
        rwa [hE] at this
      cases r with
      | error e => exact hInv1
      | ok u =>
        dsimp only
        have hlt1 : fm1.buffer_pool.length < fm1.max_pages_in_pool :=
          evictLoop_ok_lt fm fm1 u hE
        obtain ⟨hlen1, hdata1⟩ := hInv1
        constructor
        · calc (poolInsert fm1.buffer_pool pid
                (Page.mk (List.replicate fm1.page_size 0) false 0)).length
              ≤ fm1.buffer_pool.length + 1 := length_poolInsert_le _ _ _
            _ ≤ fm1.max_pages_in_pool := by omega
        · intro kv hkv
          rcases mem_poolInsert _ _ _ kv hkv with h1 | h1
          · exact hdata1 kv h1
          · rw [h1]
            simp

theorem Inv_write_page_to_pool (fm : FileManager) (pid : Nat) (data : List Nat)
    (h : Inv fm) : Inv (write_page_to_pool fm pid data).2 := by
  unfold write_page_to_pool
  split
  · exact h
  · rename_i hlen
    cases hA : addZeroPageIfAbsent fm pid with
    | mk r fm2 =>
      have hInv2 : Inv (addZeroPageIfAbsent fm pid).2 := Inv_addZeroPageIfAbsent fm pid h
      rw [hA] at hInv2
      have hps2 : fm2.page_size = fm.page_size := by
        apply page_size_of_cfg
        have := cfg_addZeroPageIfAbsent fm pid
        rwa [hA] at this
      cases r with
      | error e => exact hInv2
      | ok u =>
        dsimp only
        obtain ⟨hlen2, hdata2⟩ := hInv2
        constructor
        · unfold setPage
          rw [mapAt_length]
          exact hlen2
        · intro kv hkv
          dsimp only at hkv ⊢
          rcases mem_mapAt _ _ _ kv hkv with h1 | ⟨kv2, hmem2, _, heq⟩
          · exact hdata2 kv h1
          · rw [heq]
            dsimp only
            rw [hps2]
            omega

theorem Inv_allocate_page (fm : FileManager) (h : Inv fm) :
    Inv (allocate_page fm).2 := by
  unfold allocate_page
  cases hA : allocLoop fm with
  | mk r fm1 =>
    have hInv1 : Inv fm1 := by
      have := Inv_allocLoop fm h
      rwa [hA] at this
    cases r with
    | error e => exact hInv1
    | ok u =>
      dsimp only
      cases hW : write_page_to_pool fm1 (fm1.num_pages + 1)
          (List.replicate fm1.page_size 0) with
      | mk r2 fm2 =>
        have hInv2 : Inv fm2 := by
          have := Inv_write_page_to_pool fm1 (fm1.num_pages + 1)
            (List.replicate fm1.page_size 0) hInv1
          rwa [hW] at this
        cases r2 with
        | error e => exact hInv2
        | ok u2 => exact hInv2

theorem Inv_pin_page (fm : FileManager) (pid : Nat) (h : Inv fm) :
    Inv (pin_page fm pid).2 := by
  have hInc : ∀ gm : FileManager, Inv gm →
      Inv { gm with buffer_pool := incPin gm.buffer_pool pid } := by
    intro gm hgm
    obtain ⟨hlen, hdata⟩ := hgm
    constructor
    · unfold incPin
      rw [mapAt_length]
      exact hlen
    · intro kv hkv
      dsimp only at hkv ⊢
      rcases mem_mapAt _ _ _ kv hkv with h1 | ⟨kv2, hmem2, _, heq⟩
      · exact hdata kv h1
      · rw [heq]
        exact hdata kv2 hmem2
  unfold pin_page
  cases fm.buffer_pool.lookup pid with
  | some page => exact hInc fm h
  | none =>
    cases hR : read_page fm pid with
    | mk r fm1 =>
      have hInv1 : Inv fm1 := by
        have := Inv_read_page fm pid h
        rwa [hR] at this
      cases r with
      | error e => exact hInv1
      | ok d =>
        dsimp only
        cases fm1.buffer_pool.lookup pid with
        | some page => exact hInc fm1 hInv1
        | none => exact hInv1

theorem Inv_unpin_page (fm : FileManager) (pid : Nat) (h : Inv fm) :
    Inv (unpin_page fm pid).2 := by
  unfold unpin_page
  cases fm.buffer_pool.lookup pid with
  | some page =>
    dsimp only
    split
    · obtain ⟨hlen, hdata⟩ := h
      constructor
      · unfold decPin
        rw [mapAt_length]
        exact hlen
      · intro kv hkv
        dsimp only at hkv ⊢
        rcases mem_mapAt _ _ _ kv hkv with h1 | ⟨kv2, hmem2, _, heq⟩
        · exact hdata kv h1
        · rw [heq]
          exact hdata kv2 hmem2
    · exact h
  | none => exact h

theorem Inv_flushList (ids : List Nat) (fm : FileManager) (h : Inv fm) :
    Inv (flushList ids fm).2 := by
  induction ids generalizing fm with
  | nil => exact h
  | cons id rest ih =>
    unfold flushList
    cases hF : flush_page fm id with
    | mk r fm1 =>
      have hInv1 : Inv fm1 := by
        have := Inv_flush_page fm id h
        rwa [hF] at this
      cases r with
      | error e => exact hInv1
      | ok u => exact ih fm1 hInv1

theorem Inv_flush_all_pages (fm : FileManager) (h : Inv fm) :
    Inv (flush_all_pages fm).2 := by
  unfold flush_all_pages
  cases hL : flushList (fm.buffer_pool.map Prod.fst) fm with
  | mk r fm1 =>
    have hInv1 : Inv fm1 := by
      have := Inv_flushList (fm.buffer_pool.map Prod.fst) fm h
      rwa [hL] at this
    cases r with
    | error e => exact hInv1
    | ok u =>
      dsimp only
      split <;> exact hInv1

/-! ## Unique keys: lookup agrees with membership -/

theorem lookup_eq_of_mem_nodup (pool : List (Nat × Page)) (k : Nat) (v : Page)
    (hnd : (pool.map Prod.fst).Nodup) (hmem : (k, v) ∈ pool) :
    pool.lookup k = some v := by
  induction pool with
  | nil => cases hmem
  | cons kv rest ih =>
    obtain ⟨k2, v2⟩ := kv
    rw [List.map_cons] at hnd
    have hnd2 := List.Nodup.of_cons hnd
    have hhead : k2 ∉ rest.map Prod.fst := (List.nodup_cons.mp hnd).1
    rcases List.mem_cons.mp hmem with heq | hmem2
    · cases heq
      exact lookup_cons_eq k v rest
    · by_cases hk : k = k2
      · exfalso
        apply hhead
        rw [← hk]
        exact List.mem_map_of_mem Prod.fst hmem2
      · rw [lookup_cons_ne k k2 v2 rest hk]
        exact ih hnd2 hmem2

/-! ## Eviction never touches a pinned page (claim C2) -/

theorem evict_page_preserves_pinned (fm : FileManager)
    (hnd : (fm.buffer_pool.map Prod.fst).Nodup) (kv : Nat × Page)
    (hmem : kv ∈ fm.buffer_pool) (hpin : 0 < kv.2.pin_count) :
    kv ∈ (evict_page fm).2.buffer_pool := by
  unfold evict_page
  cases hf : fm.buffer_pool.find? (fun kv => kv.2.pin_count == 0) with
  | none => exact hmem
  | some vkv =>
    obtain ⟨vid, vpage⟩ := vkv
    have hvmem : (vid, vpage) ∈ fm.buffer_pool := List.mem_of_find?_eq_some hf
    have hvpin : vpage.pin_count = 0 := by
      have := List.find?_some hf
      simpa using this
    have hkne : kv.1 ≠ vid := by
      intro hkeq
      have h1 : fm.buffer_pool.lookup vid = some vpage :=
        lookup_eq_of_mem_nodup fm.buffer_pool vid vpage hnd hvmem
      have h2 : fm.buffer_pool.lookup vid = some kv.2 := by
        rw [← hkeq]
        exact lookup_eq_of_mem_nodup fm.buffer_pool kv.1 kv.2 hnd
          (by rcases kv with ⟨a, b⟩; exact hmem)
      rw [h1] at h2
      cases h2
      omega
    dsimp only
    by_cases hd : vpage.dirty
    · rw [if_pos hd]
      cases hfl : flush_page fm vid with
      | mk r fm1 =>
        have hmem1 : kv ∈ fm1.buffer_pool := by
          rcases flush_page_pool_cases fm vid with hp | hp
          · rw [hfl] at hp
            rw [hp]
            exact mem_mapAt_of_mem_ne _ _ _ kv hmem hkne
          · rw [hfl] at hp
            rw [hp]
            exact hmem
        cases r with
        | error e => exact hmem1
        | ok u => exact mem_poolRemove_of_mem_ne _ _ kv hmem1 hkne
    · rw [if_neg hd]
      exact mem_poolRemove_of_mem_ne _ _ kv hmem hkne

theorem evict_page_all_pinned (fm : FileManager)
    (h : ∀ kv ∈ fm.buffer_pool, kv.2.pin_count ≠ 0) :
    evict_page fm = (Except.error (StorageError.BufferPoolFull fm.num_pages), fm) := by
  unfold evict_page
  have hf : fm.buffer_pool.find? (fun kv => kv.2.pin_count == 0) = none := by
    apply List.find?_eq_none.mpr
    intro kv hkv
    simpa using h kv hkv
  rw [hf]

/-! ## Dirty eviction flushes first (claim C4) -/

theorem evict_page_dirty_eq (fm : FileManager) (vid : Nat) (vpage : Page)
    (hnd : (fm.buffer_pool.map Prod.fst).Nodup)
    (hfind : fm.buffer_pool.find? (fun kv => kv.2.pin_count == 0) = some (vid, vpage))
    (hdirty : vpage.dirty = true) :
    evict_page fm =
      if fm.diskFails then
        (Except.error StorageError.IOError, seekTo fm (vid * fm.page_size))
      else
        (Except.ok (), { fm with
          file := writeBytes fm.file (vid * fm.page_size) vpage.data,
          filePos := vid * fm.page_size + vpage.data.length,
          buffer_pool := poolRemove (setDirty fm.buffer_pool vid false) vid }) := by
  have hvmem : (vid, vpage) ∈ fm.buffer_pool := List.mem_of_find?_eq_some hfind
  have hlook : fm.buffer_pool.lookup vid = some vpage :=
    lookup_eq_of_mem_nodup fm.buffer_pool vid vpage hnd hvmem
  unfold evict_page
  rw [hfind]
  dsimp only
  rw [if_pos hdirty, flush_page_eq, hlook]
  dsimp only
  rw [if_pos hdirty]
  by_cases hfail : fm.diskFails
  · rw [if_pos hfail, if_pos hfail]
  · rw [if_neg hfail, if_neg hfail]

/-! ## Classification of errors (claim C9) -/

/-- The error says the page could not be found. -/
def isUnknown : StorageError → Prop
  | StorageError.UnknownPage _ => True
  | _ => False

theorem flush_page_error_not_unknown (fm : FileManager) (pid : Nat) (e : StorageError)
    (fm' : FileManager) (h : flush_page fm pid = (Except.error e, fm')) :
    ¬ isUnknown e := by
  rw [flush_page_eq] at h
  cases hl : fm.buffer_pool.lookup pid with
  | none => rw [hl] at h; cases h
  | some page =>
    rw [hl] at h
    dsimp only at h
    by_cases hd : page.dirty
    · rw [if_pos hd] at h
      by_cases hfail : fm.diskFails
      · rw [if_pos hfail] at h
        cases h
        simp [isUnknown]
      · rw [if_neg hfail] at h
        cases h
    · rw [if_neg hd] at h
      cases h

theorem evict_page_error_not_unknown (fm : FileManager) (e : StorageError)
    (fm' : FileManager) (h : evict_page fm = (Except.error e, fm')) :
    ¬ isUnknown e := by
  unfold evict_page at h
  cases hf : fm.buffer_pool.find? (fun kv => kv.2.pin_count == 0) with
  | none =>
    rw [hf] at h
    cases h
    simp [isUnknown]
  | some vkv =>
    obtain ⟨vid, vpage⟩ := vkv
    rw [hf] at h
    dsimp only at h
    by_cases hd : vpage.dirty
    · rw [if_pos hd] at h
      cases hfl : flush_page fm vid with
      | mk r fm1 =>
        rw [hfl] at h
        cases r with
        | error e2 =>
          cases h
          exact flush_page_error_not_unknown fm vid e fm' hfl
        | ok u => cases h
    · rw [if_neg hd] at h
      cases h

theorem evictLoop_error_not_unknown (fm : FileManager) (e : StorageError)
    (fm' : FileManager) (h : evictLoop fm = (Except.error e, fm')) :
    ¬ isUnknown e := by
  induction fm using evictLoop.induct with
  | case1 fm hge e2 fm1 hev =>
    rw [evictLoop_of_error fm fm1 e2 hge hev] at h
    cases h
    exact evict_page_error_not_unknown fm e fm' hev
  | case2 fm hge u fm1 hev ih =>
    rw [evictLoop_of_ok fm fm1 u hge hev] at h
    exact ih h
  | case3 fm hlt =>
    rw [evictLoop_of_lt fm (by omega)] at h
    cases h

theorem read_page_error_not_unknown (fm : FileManager) (pid : Nat) (e : StorageError)
    (fm' : FileManager) (h : read_page fm pid = (Except.error e, fm')) :
    ¬ isUnknown e := by
  unfold read_page at h
  cases hl : fm.buffer_pool.lookup pid with
  | some page => rw [hl] at h; cases h
  | none =>
    rw [hl] at h
    cases hE : evictLoop fm with
    | mk r fm1 =>
      rw [hE] at h
      cases r with
      | error e2 =>
        cases h
        exact evictLoop_error_not_unknown fm e fm' hE
      | ok u =>
        dsimp only at h
        cases hR : readExact (seekTo fm1 (pid * fm1.page_size))
            (seekTo fm1 (pid * fm1.page_size)).page_size with
        | mk r2 fm3 =>
          rw [hR] at h
          cases r2 with
          | error e2 =>
            cases h
            unfold readExact at hR
            split at hR
            · cases hR
            · cases hR
              simp [isUnknown]
          | ok page_data => cases h

/-! ## Concrete manager states used as witnesses -/

/-- A manager with a single resident page pinned twice (capacity 1). -/
def fmPinned : FileManager :=
  FileManager.mk "fm_test.db" [0, 0] 0 false [(1, Page.mk [0, 0] false 2)] 2 1 1

/-- An empty pool over a 4-byte file with 2-byte pages. -/
def fmBase : FileManager :=
  FileManager.mk "fm_test.db" [5, 6, 7, 8] 0 false [] 2 2 2

/-- `fmBase` after writing `[9, 9]` to page 1. -/
def fmBaseW : FileManager :=
  FileManager.mk "fm_test.db" [5, 6, 7, 8] 0 false [(1, Page.mk [9, 9] true 0)] 2 2 2

/-- A manager holding one dirty unpinned page over a failing disk. -/
def fmDirty : FileManager :=
  FileManager.mk "fm_test.db" [0, 0, 0, 0] 0 true [(1, Page.mk [7, 8] true 0)] 2 1 2

/-! ## The claims -/

/-- C2: `evict_page` never removes a page whose pin count is positive (every
pinned entry survives, byte-for-byte), and when no resident page is unpinned it
fails with `BufferPoolFull` leaving the manager exactly as it was. -/
theorem spec_C2_evict_pin_safety (fm : FileManager)
    (hnd : (fm.buffer_pool.map Prod.fst).Nodup) :
    (∀ kv ∈ fm.buffer_pool, 0 < kv.2.pin_count → kv ∈ (evict_page fm).2.buffer_pool) ∧
    ((∀ kv ∈ fm.buffer_pool, kv.2.pin_count ≠ 0) →
      evict_page fm = (Except.error (StorageError.BufferPoolFull fm.num_pages), fm)) :=
  ⟨fun kv hm hp => evict_page_preserves_pinned fm hnd kv hm hp,
   fun h => evict_page_all_pinned fm h⟩

/-- Witness for C2 at a concrete fully-pinned manager. -/
theorem spec_C2_witness :
    evict_page fmPinned =
      (Except.error (StorageError.BufferPoolFull fmPinned.num_pages), fmPinned) :=
  (spec_C2_evict_pin_safety fmPinned (by decide)).2 (by decide)

/-- C3: a successful write of `d` to page `p` followed immediately by
`read_page p` (so no eviction of `p` happens in between) returns exactly `d`,
without further state change. -/
theorem spec_C3_round_trip (fm : FileManager) (pid : Nat) (d : List Nat) (u : Unit)
    (fm' : FileManager) (h : write_page_to_pool fm pid d = (Except.ok u, fm')) :
    read_page fm' pid = (Except.ok d, fm') := by
  rcases write_page_ok_lookup fm pid d u fm' h with ⟨pg, hpg, hdata, _⟩
  unfold read_page
  rw [hpg]
  dsimp only
  rw [hdata]

/-- Witness for C3: write `[9, 9]` to page 1 of `fmBase`, then read it back. -/
theorem spec_C3_witness : read_page fmBaseW 1 = (Except.ok [9, 9], fmBaseW) := by
  have h : write_page_to_pool fmBase 1 [9, 9] = (Except.ok (), fmBaseW) := by
    unfold write_page_to_pool addZeroPageIfAbsent
    rw [evictLoop_of_lt fmBase (by decide)]
    rfl
  exact spec_C3_round_trip fmBase 1 [9, 9] () fmBaseW h

/-- C4: when the selected eviction victim is dirty, a successful eviction has
written the victim's bytes to its disk offset and removed it, while a failed
flush propagates the error and leaves the pool untouched (bytes and dirty flag
retained). -/
theorem spec_C4_dirty_eviction (fm : FileManager) (vid : Nat) (vpage : Page)
    (hnd : (fm.buffer_pool.map Prod.fst).Nodup)
    (hfind : fm.buffer_pool.find? (fun kv => kv.2.pin_count == 0) = some (vid, vpage))
    (hdirty : vpage.dirty = true) :
    ((evict_page fm).1 = Except.ok () →
      (evict_page fm).2.file = writeBytes fm.file (vid * fm.page_size) vpage.data ∧
      (evict_page fm).2.buffer_pool.lookup vid = none) ∧
    (∀ e, (evict_page fm).1 = Except.error e →
      (evict_page fm).2.buffer_pool = fm.buffer_pool) := by
  rw [evict_page_dirty_eq fm vid vpage hnd hfind hdirty]
  by_cases hfail : fm.diskFails
  · rw [if_pos hfail]
    constructor
    · intro h
      cases h
    · intro e _
      rfl
  · rw [if_neg hfail]
    constructor
    · intro _
      exact ⟨rfl, lookup_poolRemove_self _ _⟩
    · intro e h
      cases h

/-- Witness for C4 at a concrete dirty page on a failing disk: the eviction
fails and the pool is untouched. -/
theorem spec_C4_witness :
    (evict_page fmDirty).2.buffer_pool = fmDirty.buffer_pool :=
  (spec_C4_dirty_eviction fmDirty 1 (Page.mk [7, 8] true 0) (by decide) (by decide)
    rfl).2 StorageError.IOError rfl

/-- C6: a write whose buffer length differs from `page_size` fails with
`InvalidArgument` and returns the manager exactly as it was (every resident
page byte-for-byte unchanged, nothing inserted). -/
theorem spec_C6_invalid_write (fm : FileManager) (pid : Nat) (d : List Nat)
    (h : d.length ≠ fm.page_size) :
    write_page_to_pool fm pid d =
      (Except.error (StorageError.InvalidArgument (lengthMsg d.length fm.page_size)), fm) := by
  unfold write_page_to_pool
  rw [if_pos h]

/-- Witness for C6: a 1-byte write into a 2-byte-page manager. -/
theorem spec_C6_witness :
    write_page_to_pool fmBaseW 1 [9] =
      (Except.error (StorageError.InvalidArgument (lengthMsg 1 2)), fmBaseW) :=
  spec_C6_invalid_write fmBaseW 1 [9] (by decide)

/-- C5: a successful `allocate_page` returns exactly the incremented
`num_pages`; `num_pages` never decreases under any operation; and across any
interleaving that never decreases `num_pages` (which no operation does), two
successive successful allocations return strictly increasing ids — so an id is
never handed out twice. -/
theorem spec_C5_allocation_monotonic (fm : FileManager) :
    (∀ pid fm', allocate_page fm = (Except.ok pid, fm') →
      pid = fm.num_pages + 1 ∧ fm'.num_pages = fm.num_pages + 1) ∧
    (∀ pid d, fm.num_pages ≤ (read_page fm pid).2.num_pages ∧
      fm.num_pages ≤ (write_page_to_pool fm pid d).2.num_pages ∧
      fm.num_pages ≤ (allocate_page fm).2.num_pages ∧
      fm.num_pages ≤ (pin_page fm pid).2.num_pages ∧
      fm.num_pages ≤ (unpin_page fm pid).2.num_pages ∧
      fm.num_pages ≤ (flush_page fm pid).2.num_pages ∧
      fm.num_pages ≤ (flush_all_pages fm).2.num_pages ∧
      fm.num_pages ≤ (evict_page fm).2.num_pages) ∧
    (∀ pid1 fm1 fmMid pid2 fm2, allocate_page fm = (Except.ok pid1, fm1) →
      fm1.num_pages ≤ fmMid.num_pages →
      allocate_page fmMid = (Except.ok pid2, fm2) → pid1 < pid2) := by
  have hallocGe : fm.num_pages ≤ (allocate_page fm).2.num_pages := by
    cases hA : allocate_page fm with
    | mk r fm' =>
      cases r with
      | ok pid =>
        have := (allocate_page_ok_spec fm pid fm' hA).2
        simp only []
        omega
      | error e =>
        have := (allocate_page_error_state fm e fm' hA).1
        simp only []
        omega
  refine ⟨fun pid fm' h => allocate_page_ok_spec fm pid fm' h, ?_, ?_⟩
  · intro pid d
    refine ⟨?_, ?_, hallocGe, ?_, ?_, ?_, ?_, ?_⟩
    · exact Nat.le_of_eq (num_pages_of_cfg (cfg_read_page fm pid)).symm
    · exact Nat.le_of_eq (num_pages_of_cfg (cfg_write_page_to_pool fm pid d)).symm
    · exact Nat.le_of_eq (num_pages_of_cfg (cfg_pin_page fm pid)).symm
    · exact Nat.le_of_eq (num_pages_of_cfg (cfg_unpin_page fm pid)).symm
    · exact Nat.le_of_eq (num_pages_of_cfg (cfg_flush_page fm pid)).symm
    · exact Nat.le_of_eq (num_pages_of_cfg (cfg_flush_all_pages fm)).symm
    · exact Nat.le_of_eq (num_pages_of_cfg (cfg_evict_page fm)).symm
  · intro pid1 fm1 fmMid pid2 fm2 h1 hle h2
    have ha := allocate_page_ok_spec fm pid1 fm1 h1
    have hb := allocate_page_ok_spec fmMid pid2 fm2 h2
    omega

/-- `fmBase` with no pages yet and capacity 1. -/
def fmEmpty : FileManager :=
  FileManager.mk "fm_test.db" [] 0 false [] 1 1 0

/-- `fmEmpty` after its first allocation. -/
def fmEmptyA : FileManager :=
  FileManager.mk "fm_test.db" [] 0 false [(1, Page.mk [0] true 0)] 1 1 1

/-- Witness for C5: the first allocation on an empty manager returns id 1. -/
theorem spec_C5_witness :
    (1 : Nat) = fmEmpty.num_pages + 1 ∧ fmEmptyA.num_pages = fmEmpty.num_pages + 1 := by
  have h : allocate_page fmEmpty = (Except.ok 1, fmEmptyA) := by
    unfold allocate_page
    rw [allocLoop_of_lt fmEmpty (by decide)]
    dsimp only
    unfold write_page_to_pool addZeroPageIfAbsent
    rw [evictLoop_of_lt fmEmpty (by decide)]
    rfl
  exact (spec_C5_allocation_monotonic fmEmpty).1 1 fmEmptyA h

/-- C7: `flush_page` is a successful no-op when the page is absent or clean;
on a dirty page it writes the page's bytes (all `page_size` of them) at offset
`page_id * page_size` and clears `dirty` exactly when the write succeeds, while
a failed write leaves the pool (dirty flag included) untouched; consequently a
second flush with no intervening write is a no-op observing `dirty = false`. -/
theorem spec_C7_flush (fm : FileManager) (pid : Nat) :
    (fm.buffer_pool.lookup pid = none → flush_page fm pid = (Except.ok (), fm)) ∧
    (∀ pg, fm.buffer_pool.lookup pid = some pg → pg.dirty = false →
      flush_page fm pid = (Except.ok (), fm)) ∧
    (∀ pg, fm.buffer_pool.lookup pid = some pg → pg.dirty = true →
      pg.data.length = fm.page_size → fm.diskFails = false →
      (flush_page fm pid).1 = Except.ok () ∧
      (flush_page fm pid).2.file = writeBytes fm.file (pid * fm.page_size) pg.data ∧
      (flush_page fm pid).2.buffer_pool.lookup pid = some { pg with dirty := false }) ∧
    (∀ pg, fm.buffer_pool.lookup pid = some pg → pg.dirty = true → fm.diskFails = true →
      flush_page fm pid = (Except.error StorageError.IOError, seekTo fm (pid * fm.page_size))) ∧
    (∀ u fm1, flush_page fm pid = (Except.ok u, fm1) →
      flush_page fm1 pid = (Except.ok (), fm1) ∧
      ∀ pg, fm1.buffer_pool.lookup pid = some pg → pg.dirty = false) := by
  refine ⟨?_, ?_, ?_, ?_, ?_⟩
  · intro hnone
    rw [flush_page_eq, hnone]
  · intro pg hpg hclean
    rw [flush_page_eq, hpg]
    simp [hclean]
  · intro pg hpg hdirty hlen hok
    rw [flush_page_eq, hpg]
    simp only [hdirty, hok, if_true, Bool.false_eq_true, if_false]
    refine ⟨trivial, trivial, ?_⟩
    rw [lookup_setDirty_self, hpg]
    rfl
  · intro pg hpg hdirty hfail
    rw [flush_page_eq, hpg]
    simp only [hdirty, hfail, if_true]
  · intro u fm1 h
    rw [flush_page_eq] at h
    cases hl : fm.buffer_pool.lookup pid with
    | none =>
      rw [hl] at h
      cases h
      constructor
      · rw [flush_page_eq, hl]
      · intro pg hpg
        rw [hl] at hpg
        cases hpg
    | some pg =>
      rw [hl] at h
      dsimp only at h
      by_cases hd : pg.dirty
      · rw [if_pos hd] at h
        by_cases hfail : fm.diskFails
        · rw [if_pos hfail] at h
          cases h
        · rw [if_neg hfail] at h
          cases h
          have hlook1 : (setDirty fm.buffer_pool pid false).lookup pid =
              some { pg with dirty := false } := by
            rw [lookup_setDirty_self, hl]
            rfl
          constructor
          · rw [flush_page_eq]
            dsimp only
            rw [hlook1]
            rfl
          · intro pg2 hpg2
            dsimp only at hpg2
            rw [hlook1] at hpg2
            cases hpg2
            rfl
      · rw [if_neg hd] at h
        cases h
        constructor
        · rw [flush_page_eq, hl]
          dsimp only
          rw [Bool.of_not_eq_true hd]
          rfl
        · intro pg2 hpg2
          rw [hl] at hpg2
          cases hpg2
          exact Bool.of_not_eq_true hd

/-- Witness for C7: flushing an absent page of `fmBase` is a no-op. -/
theorem spec_C7_witness : flush_page fmBase 5 = (Except.ok (), fmBase) :=
  (spec_C7_flush fmBase 5).1 rfl

/-- C8: every operation preserves the joint invariant — the pool never exceeds
`max_pages_in_pool` and every resident page holds exactly `page_size` bytes —
whatever the outcome (quiescent points are the returned states, success or
error). -/
theorem spec_C8_invariant_preserved (fm : FileManager) (pid : Nat) (d : List Nat)
    (h : Inv fm) :
    Inv (read_page fm pid).2 ∧ Inv (write_page_to_pool fm pid d).2 ∧
    Inv (allocate_page fm).2 ∧ Inv (pin_page fm pid).2 ∧ Inv (unpin_page fm pid).2 ∧
    Inv (flush_page fm pid).2 ∧ Inv (flush_all_pages fm).2 ∧ Inv (evict_page fm).2 :=
  ⟨Inv_read_page fm pid h, Inv_write_page_to_pool fm pid d h, Inv_allocate_page fm h,
   Inv_pin_page fm pid h, Inv_unpin_page fm pid h, Inv_flush_page fm pid h,
   Inv_flush_all_pages fm h, Inv_evict_page fm h⟩

/-- Witness for C8 on a concrete manager. -/
theorem spec_C8_witness : Inv (flush_page fmBase 5).2 :=
  (spec_C8_invariant_preserved fmBase 5 []
    (by unfold Inv; exact ⟨by decide, by decide⟩)).2.2.2.2.2.1

/-- C9: whenever the internal `read_page` succeeds the page is resident in the
resulting pool, so `pin_page`'s `UnknownPage` branch is unreachable: `pin_page`
never returns `UnknownPage`, for any state and id. -/
theorem spec_C9_pin_never_unknown (fm : FileManager) (pid : Nat) :
    (∀ d fm', read_page fm pid = (Except.ok d, fm') →
      (fm'.buffer_pool.lookup pid).isSome = true) ∧
    (∀ i, (pin_page fm pid).1 ≠ Except.error (StorageError.UnknownPage i)) := by
  constructor
  · intro d fm' h
    rcases read_page_ok_lookup fm pid d fm' h with ⟨pg, hpg, _⟩
    rw [hpg]
    rfl
  · intro i
    unfold pin_page
    cases hl : fm.buffer_pool.lookup pid with
    | some page => simp
    | none =>
      cases hR : read_page fm pid with
      | mk r fm1 =>
        cases r with
        | error e =>
          dsimp only
          intro hcontra
          have he : e = StorageError.UnknownPage i := by
            cases hcontra
            rfl
          subst he
          exact read_page_error_not_unknown fm pid _ fm1 hR trivial
        | ok d =>
          rcases read_page_ok_lookup fm pid d fm1 hR with ⟨pg, hpg, _⟩
          dsimp only
          rw [hpg]
          simp

/-- Witness for C9: after a (cache-hit) read of page 1 on `fmBaseW`, page 1 is
resident. -/
theorem spec_C9_witness : (fmBaseW.buffer_pool.lookup 1).isSome = true :=
  (spec_C9_pin_never_unknown fmBaseW 1).1 [9, 9] fmBaseW rfl

/-- C10: `read_page` never validates the id against `num_pages`: on a cache
miss with room in the pool, id 0 is accepted and returns the first `page_size`
bytes of the file, and any id whose byte range extends past the end of the
file fails with the I/O error of the exact read — never with `UnknownPage`. -/
theorem spec_C10_no_id_validation (fm : FileManager) (pid : Nat)
    (hmiss : fm.buffer_pool.lookup pid = none)
    (hroom : fm.buffer_pool.length < fm.max_pages_in_pool) :
    (pid = 0 → fm.page_size ≤ fm.file.length →
      (read_page fm pid).1 = Except.ok (fm.file.take fm.page_size)) ∧
    (fm.file.length < pid * fm.page_size + fm.page_size →
      read_page fm pid = (Except.error StorageError.IOError, seekTo fm (pid * fm.page_size))) := by
  constructor
  · intro h0 hle
    subst h0
    unfold read_page
    rw [hmiss]
    dsimp only
    rw [evictLoop_of_lt fm hroom]
    dsimp only [seekTo]
    unfold readExact
    rw [if_pos (by simpa using hle)]
    simp
  · intro hshort
    unfold read_page
    rw [hmiss]
    dsimp only
    rw [evictLoop_of_lt fm hroom]
    dsimp only [seekTo]
    unfold readExact
    rw [if_neg (by simp; omega)]

/-- A one-page-capacity manager over a 3-byte file. -/
def fmSmall : FileManager :=
  FileManager.mk "fm_test.db" [5, 6, 7] 0 false [] 2 1 1

/-- Witness for C10: reading page 0 of `fmSmall` returns the file's first two
bytes. -/
theorem spec_C10_witness :
    (read_page fmSmall 0).1 = Except.ok (fmSmall.file.take fmSmall.page_size) :=
  (spec_C10_no_id_validation fmSmall 0 rfl (by decide)).1 rfl (by decide)

/-- A full manager (`num_pages` = capacity) holding one clean unpinned page. -/
def fmFull : FileManager :=
  FileManager.mk "fm_test.db" [0] 0 false [(1, Page.mk [0] false 0)] 1 1 1

/-- `fmFull` after `allocate_page` has failed: the pool has been emptied. -/
def fmFullE : FileManager :=
  FileManager.mk "fm_test.db" [0] 0 false [] 1 1 1

/-- C1 counterexample: `allocate_page` can fail (here with `BufferPoolFull`)
while leaving the manager visibly changed — the resident page of `fmFull` has
been evicted, so the pool contents are not the pre-call contents. -/
theorem spec_C1_counterexample :
    allocate_page fmFull = (Except.error (StorageError.BufferPoolFull 1), fmFullE) ∧
    fmFullE.buffer_pool ≠ fmFull.buffer_pool := by
  have h1 : evict_page fmFull = (Except.ok (), fmFullE) := rfl
  have h2 : evict_page fmFullE =
      (Except.error (StorageError.BufferPoolFull 1), fmFullE) := rfl
  have hA : allocLoop fmFull = (Except.error (StorageError.BufferPoolFull 1), fmFullE) := by
    rw [allocLoop_of_ok fmFull fmFullE () (by decide) h1,
      allocLoop_of_error fmFullE fmFullE _ (by decide) h2]
  constructor
  · unfold allocate_page
    rw [hA]
  · decide

/-- C1 amended: every public operation is fail-fast and performs, on error, no
partial page insertion and no partial count increment — `num_pages` is
unchanged and the requested (or to-be-allocated) page is not left inserted —
with the originally noted exception unchanged: a failed flush leaves `dirty`
still set.  However, a failed `read_page`, `write_page_to_pool`,
`allocate_page` or `pin_page` may already have evicted (flushing if dirty)
unpinned pages before failing, so the pool is not necessarily in its full
pre-call state; in particular a failed `allocate_page` may have evicted every
unpinned page. -/
theorem spec_C1_amended (fm : FileManager) (pid : Nat) (d : List Nat) :
    (∀ e fm', read_page fm pid = (Except.error e, fm') →
      fm'.num_pages = fm.num_pages ∧ fm'.buffer_pool.lookup pid = none) ∧
    (∀ e fm', write_page_to_pool fm pid d = (Except.error e, fm') →
      fm'.num_pages = fm.num_pages ∧
      (fm.buffer_pool.lookup pid = none → fm'.buffer_pool.lookup pid = none)) ∧
    (∀ e fm', allocate_page fm = (Except.error e, fm') →
      fm'.num_pages = fm.num_pages ∧
      (∀ j, fm.buffer_pool.lookup j = none → fm'.buffer_pool.lookup j = none)) ∧
    (∀ e fm', pin_page fm pid = (Except.error e, fm') →
      fm'.num_pages = fm.num_pages ∧ fm'.buffer_pool.lookup pid = none) ∧
    (∀ e fm', flush_page fm pid = (Except.error e, fm') →
      fm'.buffer_pool = fm.buffer_pool ∧ fm'.num_pages = fm.num_pages ∧
      fm'.file = fm.file ∧
      ∃ pg, fm'.buffer_pool.lookup pid = some pg ∧ pg.dirty = true) ∧
    (∀ e fm', flush_all_pages fm = (Except.error e, fm') →
      fm'.num_pages = fm.num_pages) := by
  refine ⟨?_, ?_, ?_, ?_, ?_, ?_⟩
  · intro e fm' h
    have hc := cfg_read_page fm pid
    rw [h] at hc
    rcases read_page_error_state fm pid e fm' h with ⟨hm, hpres⟩
    exact ⟨num_pages_of_cfg hc, hpres pid hm⟩
  · intro e fm' h
    have hc := cfg_write_page_to_pool fm pid d
    rw [h] at hc
    exact ⟨num_pages_of_cfg hc, fun hm => write_page_error_state fm pid d e fm' h pid hm⟩
  · intro e fm' h
    exact allocate_page_error_state fm e fm' h
  · intro e fm' h
    have hc := cfg_pin_page fm pid
    rw [h] at hc
    refine ⟨num_pages_of_cfg hc, ?_⟩
    unfold pin_page at h
    cases hl : fm.buffer_pool.lookup pid with
    | some page =>
      rw [hl] at h
      cases h
    | none =>
      rw [hl] at h
      cases hR : read_page fm pid with
      | mk r fm1 =>
        rw [hR] at h
        cases r with
        | error e2 =>
          cases h
          rcases read_page_error_state fm pid e fm' hR with ⟨hm, hpres⟩
          exact hpres pid hm
        | ok d2 =>
          dsimp only at h
          cases hl1 : fm1.buffer_pool.lookup pid with
          | some page =>
            rw [hl1] at h
            cases h
          | none =>
            rw [hl1] at h
            cases h
            exact hl1
  · intro e fm' h
    rw [flush_page_eq] at h
    cases hl : fm.buffer_pool.lookup pid with
    | none =>
      rw [hl] at h
      cases h
    | some pg =>
      rw [hl] at h
      dsimp only at h
      by_cases hd : pg.dirty
      · rw [if_pos hd] at h
        by_cases hfail : fm.diskFails
        · rw [if_pos hfail] at h
          cases h
          exact ⟨rfl, rfl, rfl, pg, hl, hd⟩
        · rw [if_neg hfail] at h
          cases h
      · rw [if_neg hd] at h
        cases h
  · intro e fm' h
    have hc := cfg_flush_all_pages fm
    rw [h] at hc
    exact num_pages_of_cfg hc

/-- `fmBase` after the failed read of out-of-range page 2 (only the seek
position moved). -/
def fmBaseR : FileManager :=
  FileManager.mk "fm_test.db" [5, 6, 7, 8] 4 false [] 2 2 2

/-- Witness for the amended C1: a failed out-of-range read on `fmBase` leaves
`num_pages` unchanged and inserts nothing. -/
theorem spec_C1_amended_witness :
    fmBaseR.num_pages = fmBase.num_pages ∧ fmBaseR.buffer_pool.lookup 2 = none := by
  have h : read_page fmBase 2 = (Except.error StorageError.IOError, fmBaseR) := by
    unfold read_page
    rw [show List.lookup 2 fmBase.buffer_pool = none from rfl]
    dsimp only
    rw [evictLoop_of_lt fmBase (by decide)]
    rfl
  exact (spec_C1_amended fmBase 2 []).1 StorageError.IOError fmBaseR h

end FileManager

end SkibiDB
